import Mathlib

/-!
Verification development for the ragsql repository.

The Python source (`src/main.py`, `src/gemini_generator.py`) is shallowly
embedded below.  Pure string manipulation (intent parsing, query-type
detection, SQL sanitization) becomes pure Lean functions on `String` /
`List Char`.  Effectful code (`run_query`, `retrieve_from_db`,
`execute_sql`) is embedded against an environment `Env` of oracles for the
external collaborators (database cursor, language model); each oracle
returns `Except String α`, where `.error e` models a raised Python
exception carrying message `e`.  Each run also produces a trace of
`Event`s recording database executions, branch entries and resource
releases, so that temporal and resource claims can be stated.
-/

namespace RagSql

/-! ## String helpers modelling Python primitives -/

/-- Boolean list-as-sequence test: is `p` an initial segment of `l`?
Models Python `str.startswith` once strings are viewed as char lists. -/
def isPre : List Char → List Char → Bool
  | [], _ => true
  | _ :: _, [] => false
  | a :: as, b :: bs => a == b && isPre as bs

/-- Does `pat` occur as a contiguous substring of `l`?  Models Python's
`pat in s` on char lists. -/
def hasSub (pat : List Char) : List Char → Bool
  | [] => isPre pat []
  | c :: rest => isPre pat (c :: rest) || hasSub pat rest

/-- Python `pat in s` (substring containment). -/
def containsSub (s pat : String) : Bool := hasSub pat.toList s.toList

/-- Python `s.lower()` (ASCII case folding, as used by the source on its
keyword sets). -/
def pyLower (s : String) : String := String.mk (s.toList.map Char.toLower)

/-- Python `s.startswith(p)`. -/
def pyStartsWith (s p : String) : Bool := isPre p.toList s.toList

/-- Strip leading and trailing whitespace from a char list
(Python `str.strip()`). -/
def trimChars (l : List Char) : List Char :=
  ((l.dropWhile Char.isWhitespace).reverse.dropWhile Char.isWhitespace).reverse

/-- Python `s.strip()`. -/
def pyStrip (s : String) : String := String.mk (trimChars s.toList)

/-- Worker for `splitlines`: accumulates the current line (reversed). -/
def splitlinesGo : List Char → List Char → List String
  | [], cur => if cur.isEmpty then [] else [String.mk cur.reverse]
  | '\n' :: rest, cur => String.mk cur.reverse :: splitlinesGo rest []
  | '\r' :: '\n' :: rest, cur => String.mk cur.reverse :: splitlinesGo rest []
  | '\r' :: rest, cur => String.mk cur.reverse :: splitlinesGo rest []
  | c :: rest, cur => splitlinesGo rest (c :: cur)

/-- Python `s.splitlines()` (no trailing empty line). -/
def splitlines (s : String) : List String := splitlinesGo s.toList []

/-- Python `"\n".join(lines)`. -/
def joinNL : List String → String
  | [] => ""
  | [l] => l
  | l :: rest => l ++ "\n" ++ joinNL rest

/-- Drop everything up to and including the first newline
(Python `s.split("\n", 1)[1]` when a newline is present). -/
def dropFirstLine : List Char → List Char
  | [] => []
  | '\n' :: rest => rest
  | _ :: rest => dropFirstLine rest

/-- Python regex `\w` on ASCII: letters, digits, underscore. -/
def wordChar (c : Char) : Bool := c.isAlphanum || c == '_'

/-- Worker for `wordTokens`: accumulates the current token (reversed). -/
def tokensGo : List Char → List Char → List String
  | [], cur => if cur.isEmpty then [] else [String.mk cur.reverse]
  | c :: rest, cur =>
    if wordChar c then tokensGo rest (c :: cur)
    else if cur.isEmpty then tokensGo rest []
    else String.mk cur.reverse :: tokensGo rest []

/-- Python `re.findall(r"\w+", s)`: maximal runs of word characters. -/
def wordTokens (s : String) : List String := tokensGo s.toList []

/-! ## Data model -/

/-- A database row: an ordered sequence of column values (scalars are
modelled as strings; only equality on the values matters here). -/
abbrev Row := List String

/-- `_STOPWORDS` from `src/main.py`. -/
def _STOPWORDS : List String :=
  ["who", "is", "what", "the", "a", "an", "of", "in", "on", "at", "for", "to"]

/-- Result of `parse_intent`: the Python dict `{"action": "sql", "sql": s,
"explain": tag}` becomes `canned s tag`; `{"action": None}` becomes
`noIntent`. -/
inductive Intent where
  | canned (sql : String) (tag : String)
  | noIntent
deriving DecidableEq

/-- `parse_intent` from `src/main.py` (lines 10-44): map explicit list or
aggregate intents to fixed SQL templates, first match wins. -/
def parse_intent (query : String) : Intent :=
  let q := pyLower query
  if ["name", "names", "list names", "just tell me the names",
      "tell me the names", "all the people"].any (fun k => containsSub q k) then
    .canned "SELECT id, name FROM people_info;" "list of names"
  else if ["company", "companies", "list companies", "which companies"].any
      (fun k => containsSub q k) then
    .canned "SELECT DISTINCT company FROM people_info WHERE company IS NOT NULL AND company != '';" "distinct companies"
  else if ["role", "roles", "list roles", "what roles"].any
      (fun k => containsSub q k) then
    .canned "SELECT DISTINCT role FROM people_info WHERE role IS NOT NULL AND role != '';" "distinct roles"
  else if (["age", "ages", "list ages", "show ages"].any (fun k => containsSub q k))
      && (["list", "show", "names", "just"].any (fun w => containsSub q w)) then
    .canned "SELECT id, name, age FROM people_info;" "names and ages"
  else if containsSub q "count" || (containsSub q "how many"
      || containsSub q "total number" || containsSub q "number of") then
    .canned "SELECT COUNT(*) FROM people_info;" "count"
  else if ["sum of age", "sum of ages", "total age", "total of ages", "sum ages"].any
      (fun k => containsSub q k) then
    .canned "SELECT SUM(age) FROM people_info;" "sum of ages"
  else if ["average age", "avg age", "average of ages", "mean age"].any
      (fun k => containsSub q k) then
    .canned "SELECT AVG(age) FROM people_info;" "average age"
  else if ["max age", "maximum age", "oldest"].any (fun k => containsSub q k) then
    .canned "SELECT MAX(age) FROM people_info;" "maximum age"
  else if ["min age", "minimum age", "youngest"].any (fun k => containsSub q k) then
    .canned "SELECT MIN(age) FROM people_info;" "minimum age"
  else
    .noIntent

/-- The analytical keyword list of `detect_query_type` (`src/main.py`
lines 48-51). -/
def analytical_keywords : List String :=
  ["how many", "count", "average", "sum", "total",
   "rows", "maximum", "minimum", "number of", "total number", "age", "salary"]

/-- `detect_query_type` from `src/main.py` (lines 47-54).  The source
labels the analytical category with the string `"sql_query"`. -/
def detect_query_type (query : String) : String :=
  if analytical_keywords.any (fun word => containsSub (pyLower query) word) then
    "sql_query"
  else
    "retrieval"

/-! ## SQL sanitizer (`generate_sql` post-processing,
`src/gemini_generator.py` lines 75-89) -/

/-- The sanitization applied to the model's raw SQL text: trim, strip a
triple-backtick fence, strip a leading `sql` language tag, truncate at the
first semicolon, re-append one semicolon. -/
def sanitize (raw : String) : String :=
  let sql_text := pyStrip raw
  let sql_text :=
    if pyStartsWith sql_text "```" then
      let lines := splitlines sql_text
      let lines :=
        match lines with
        | [] => []
        | l0 :: rest => if pyStartsWith l0 "```" then rest else l0 :: rest
      let lines :=
        match lines.getLast? with
        | none => lines
        | some last => if pyStartsWith last "```" then lines.dropLast else lines
      pyStrip (joinNL lines)
    else sql_text
  let sql_text :=
    if pyStartsWith (pyLower sql_text) "sql\n" then
      pyStrip (String.mk (dropFirstLine sql_text.toList))
    else sql_text
  pyStrip (String.mk (sql_text.toList.takeWhile (fun c => c != ';'))) ++ ";"

/-! ## Effect model

External collaborators (`src/main.py` line 1 imports, `src/gemini_generator.py`)
are oracles; `.error e` models a raised exception with message `e`. -/

/-- The oracle environment: database connection provider, cursor
execution, and the three language-model calls.  `llmSqlText` is the raw
`response.text` inside `generate_sql` before sanitization. -/
structure Env where
  get_connection : Except String Unit
  open_cursor : Except String Unit
  dbExec : String → List String → Except String (List Row)
  llmSqlText : String → Except String String
  generate_answer : String → List Row → Except String String
  explain_sql_result : List Row → String → Except String String

/-- Trace events recording what a run did: database executions, branch
entries, and resource releases. -/
inductive Event where
  | connectEv
  | cursorEv
  | dbExecEv (sql : String) (params : List String)
  | cannedIntentEv (sql : String) (tag : String)
  | nameShortcutEv
  | cursorCloseEv
  | connCloseEv
deriving DecidableEq

/-- `execute_sql` from `src/main.py` (lines 96-104): reject non-SELECT
statements with an advisory string without touching the database;
otherwise execute, catching any database exception into a formatted
error string.  `Sum.inl` is a row result, `Sum.inr` an error/advisory
string; the second component records the database calls performed. -/
def execute_sql (env : Env) (sql : String) : (List Row ⊕ String) × List Event :=
  if !(pyStartsWith (pyLower sql) "select") then
    (.inr " Only SELECT queries are allowed for safety.", [])
  else
    match env.dbExec sql [] with
    | .ok result => (.inl result, [.dbExecEv sql []])
    | .error e => (.inr ("⚠️SQL Error: " ++ e), [.dbExecEv sql []])

/-- The parametrized four-column wildcard SQL text of `retrieve_from_db`
(`src/main.py` lines 58-64). -/
def fuzzySql : String :=
  "\n        SELECT * FROM people_info\n        WHERE name LIKE %s\n        OR company LIKE %s\n        OR role LIKE %s\n        OR background LIKE %s;\n    "

/-- The focused name-listing SQL of the retrieval shortcut
(`src/main.py` line 68). -/
def namesSql : String := "SELECT id, name FROM people_info;"

/-- The guard of the name-listing shortcut in `retrieve_from_db`
(`src/main.py` line 67). -/
def nameShortcutGuard (query : String) : Bool :=
  let normalized := pyLower query
  (containsSub normalized "name" || containsSub normalized "names")
    && (["all", "list", "tell", "show", "just"].any
        (fun k => containsSub normalized k))

/-- Dedup key used by the token fallback (`src/main.py` line 86):
`row[0]` when the row is non-empty, else the row itself. -/
def rowKey (r : Row) : String ⊕ Row :=
  match r with
  | [] => .inr r
  | x :: _ => .inl x

/-- Python dict assignment `d[k] = v`: replace in place when the key is
present, append otherwise (insertion order preserved). -/
def dictInsert (d : List ((String ⊕ Row) × Row)) (k : String ⊕ Row) (v : Row) :
    List ((String ⊕ Row) × Row) :=
  match d with
  | [] => [(k, v)]
  | (k', v') :: rest =>
    if k' = k then (k, v) :: rest else (k', v') :: dictInsert rest k v

/-- The token list of the fallback (`src/main.py` line 79): word-character
runs of the query, dropping stopwords (case-insensitively) and tokens of
length at most 2. -/
def fallbackTokens (query : String) : List String :=
  (wordTokens query).filter
    (fun t => !(_STOPWORDS.contains (pyLower t)) && decide (2 < t.length))

/-- The per-token loop of the fallback (`src/main.py` lines 81-87):
search each token, folding the rows into the dedup map. -/
def tokenLoop (env : Env) :
    List String → List ((String ⊕ Row) × Row) →
    Except String (List ((String ⊕ Row) × Row)) × List Event
  | [], found => (.ok found, [])
  | t :: rest, found =>
    let w := "%" ++ t ++ "%"
    match env.dbExec fuzzySql [w, w, w, w] with
    | .error e => (.error e, [.dbExecEv fuzzySql [w, w, w, w]])
    | .ok rows =>
      let found2 := rows.foldl (fun d r => dictInsert d (rowKey r) r) found
      let res := tokenLoop env rest found2
      (res.1, .dbExecEv fuzzySql [w, w, w, w] :: res.2)

/-- `retrieve_from_db` from `src/main.py` (lines 57-93): name-listing
shortcut, then full-query wildcard search, then token fallback with
first-column dedup when the full search is empty. -/
def retrieve_from_db (env : Env) (query : String) :
    Except String (List Row) × List Event :=
  if nameShortcutGuard query then
    match env.dbExec namesSql [] with
    | .ok rows => (.ok rows, [.nameShortcutEv, .dbExecEv namesSql []])
    | .error e => (.error e, [.nameShortcutEv, .dbExecEv namesSql []])
  else
    let w := "%" ++ query ++ "%"
    match env.dbExec fuzzySql [w, w, w, w] with
    | .error e => (.error e, [.dbExecEv fuzzySql [w, w, w, w]])
    | .ok results =>
      if results.isEmpty then
        let tl := tokenLoop env (fallbackTokens query) []
        match tl.1 with
        | .error e => (.error e, .dbExecEv fuzzySql [w, w, w, w] :: tl.2)
        | .ok found =>
          if found.isEmpty then
            (.ok results, .dbExecEv fuzzySql [w, w, w, w] :: tl.2)
          else
            (.ok (found.map Prod.snd), .dbExecEv fuzzySql [w, w, w, w] :: tl.2)
      else
        (.ok results, [.dbExecEv fuzzySql [w, w, w, w]])

/-- `generate_sql` from `src/gemini_generator.py` (lines 62-89): the model
call may raise; on success its text is sanitized. -/
def generate_sql (env : Env) (query : String) : Except String String :=
  match env.llmSqlText query with
  | .ok raw => .ok (sanitize raw)
  | .error e => .error e

/-- The result record of `run_query` (`src/main.py` lines 172-178). -/
structure Out where
  generated_sql : Option String
  sql_result : Option (List Row ⊕ String)
  retrieved_context : Option (List Row)
  model_answer : Option String
  error : Option String
deriving DecidableEq

/-- The freshly initialized record (all fields `None`). -/
def out0 : Out :=
  { generated_sql := none, sql_result := none, retrieved_context := none,
    model_answer := none, error := none }

/-- The `try:` body of `run_query` (`src/main.py` lines 180-215).  An
`.error (o, e)` result is a raised exception with message `e` escaping
while the mutable record held `o`; `.ok o` is a normal completion. -/
def runBody (env : Env) (q : String) : Except (Out × String) Out × List Event :=
  match env.get_connection with
  | .error e => (.error (out0, e), [])
  | .ok _ =>
  match env.open_cursor with
  | .error e => (.error (out0, e), [.connectEv])
  | .ok _ =>
    if detect_query_type q = "retrieval" then
      match parse_intent q with
      | .canned sql tag =>
        let o1 : Out := { out0 with generated_sql := some sql }
        let r := execute_sql env sql
        let o2 : Out := { o1 with sql_result := some r.1 }
        let pre := [Event.connectEv, Event.cursorEv,
                    Event.cannedIntentEv sql tag] ++ r.2
        match r.1 with
        | .inl rows =>
          match env.explain_sql_result rows q with
          | .error e => (.error (o2, e), pre)
          | .ok ans =>
            (.ok { o2 with model_answer := some ans },
             pre ++ [Event.cursorCloseEv, Event.connCloseEv])
        | .inr _ =>
          (.ok o2, pre ++ [Event.cursorCloseEv, Event.connCloseEv])
      | .noIntent =>
        let r := retrieve_from_db env q
        let pre := [Event.connectEv, Event.cursorEv] ++ r.2
        match r.1 with
        | .error e => (.error (out0, e), pre)
        | .ok results =>
          if results.isEmpty then
            (.ok { out0 with model_answer := some "No relevant data found." },
             pre ++ [Event.cursorCloseEv, Event.connCloseEv])
          else
            match env.generate_answer q results with
            | .error e =>
              (.error ({ out0 with retrieved_context := some results }, e), pre)
            | .ok ans =>
              (.ok { out0 with retrieved_context := some results,
                               model_answer := some ans },
               pre ++ [Event.cursorCloseEv, Event.connCloseEv])
    else if detect_query_type q = "sql_query" then
      match generate_sql env q with
      | .error e => (.error (out0, e), [Event.connectEv, Event.cursorEv])
      | .ok sql =>
        let o1 : Out := { out0 with generated_sql := some sql }
        let r := execute_sql env sql
        let o2 : Out := { o1 with sql_result := some r.1 }
        let pre := [Event.connectEv, Event.cursorEv] ++ r.2
        match r.1 with
        | .inl rows =>
          match env.explain_sql_result rows q with
          | .error e => (.error (o2, e), pre)
          | .ok ans =>
            (.ok { o2 with model_answer := some ans },
             pre ++ [Event.cursorCloseEv, Event.connCloseEv])
        | .inr _ =>
          (.ok o2, pre ++ [Event.cursorCloseEv, Event.connCloseEv])
    else
      (.ok out0, [Event.connectEv, Event.cursorEv,
                  Event.cursorCloseEv, Event.connCloseEv])

/-- `run_query` from `src/main.py` (lines 162-219): run the body under a
broad `except` that writes the exception message into `error` on the
record as it stood when the exception escaped. -/
def run_query (env : Env) (q : String) : Out × List Event :=
  match runBody env q with
  | (.ok o, evs) => (o, evs)
  | (.error (o, e), evs) => ({ o with error := some e }, evs)

/-- Invariant of the token-fallback dedup map: keys are pairwise distinct
and each entry's key is the dedup key of its row. -/
def KeyInv (d : List ((String ⊕ Row) × Row)) : Prop :=
  (d.map Prod.fst).Nodup ∧ ∀ p ∈ d, p.1 = rowKey p.2

/-- An environment whose oracles all succeed (empty table, fixed model
answers). -/
def envOk : Env :=
  { get_connection := .ok (), open_cursor := .ok (),
    dbExec := fun _ _ => .ok [],
    llmSqlText := fun _ => .ok "SELECT 1",
    generate_answer := fun _ _ => .ok "ans",
    explain_sql_result := fun _ _ => .ok "exp" }

/-- An environment whose result-explainer call raises (models a failing
language-model call after the SQL step succeeded). -/
def envBoom : Env :=
  { get_connection := .ok (), open_cursor := .ok (),
    dbExec := fun _ _ => .ok [["3"]],
    llmSqlText := fun _ => .ok "SELECT COUNT(*) FROM people_info;",
    generate_answer := fun _ _ => .ok "ans",
    explain_sql_result := fun _ _ => .error "boom" }

/-- An environment whose database cursor raises on every execution. -/
def envFail : Env :=
  { get_connection := .ok (), open_cursor := .ok (),
    dbExec := fun _ _ => .error "bad table",
    llmSqlText := fun _ => .ok "SELECT 1",
    generate_answer := fun _ _ => .ok "ans",
    explain_sql_result := fun _ _ => .ok "exp" }

/-- A one-row table reachable only through the token pattern `%Asmi%`
(so the full-query search finds nothing). -/
def fTable : String → List String → List Row :=
  fun _ ps =>
    if ps = ["%Asmi%", "%Asmi%", "%Asmi%", "%Asmi%"] then [["1", "Asmi"]]
    else []

/-- An environment whose cursor executes against `fTable` and never
raises. -/
def envT : Env :=
  { get_connection := .ok (), open_cursor := .ok (),
    dbExec := fun s p => .ok (fTable s p),
    llmSqlText := fun _ => .ok "SELECT 1",
    generate_answer := fun _ _ => .ok "ans",
    explain_sql_result := fun _ _ => .ok "exp" }

/-! ## Substring lemmas -/

theorem isPre_iff (p l : List Char) : isPre p l = true ↔ p <+: l := by
  induction p generalizing l with
  | nil => simp [isPre, List.nil_prefix]
  | cons a as ih =>
    cases l with
    | nil => simp [isPre]
    | cons b bs =>
      simp [isPre, List.cons_prefix_cons, ih, and_comm]

theorem hasSub_iff (p l : List Char) : hasSub p l = true ↔ p <:+: l := by
  induction l with
  | nil => simp [hasSub, isPre_iff, List.prefix_nil, List.infix_nil]
  | cons c rest ih =>
    simp [hasSub, isPre_iff, ih, List.infix_cons_iff]

theorem containsSub_trans {s t kw : String} (h1 : containsSub s t = true)
    (h2 : containsSub t kw = true) : containsSub s kw = true := by
  rw [containsSub, hasSub_iff] at h1 h2 ⊢
  exact h2.trans h1

theorem detect_eq_sql_query_of_kw {q : String} (kw : String)
    (hmem : kw ∈ analytical_keywords)
    (h : containsSub (pyLower q) kw = true) :
    detect_query_type q = "sql_query" := by
  unfold detect_query_type
  rw [if_pos]
  exact List.any_eq_true.mpr ⟨kw, hmem, h⟩

theorem no_kw_of_retrieval {q : String} (h : detect_query_type q = "retrieval")
    (kw : String) (hmem : kw ∈ analytical_keywords) :
    containsSub (pyLower q) kw = false := by
  cases hc : containsSub (pyLower q) kw with
  | false => rfl
  | true =>
    rw [detect_eq_sql_query_of_kw kw hmem hc] at h
    exact absurd h (by decide)

/-! ## Intent-resolver branch characterizations -/

theorem count_intent_cond {q : String}
    (h : parse_intent q = .canned "SELECT COUNT(*) FROM people_info;" "count") :
    (containsSub (pyLower q) "count" || (containsSub (pyLower q) "how many"
      || containsSub (pyLower q) "total number"
      || containsSub (pyLower q) "number of")) = true := by
  simp only [parse_intent] at h
  split at h
  · exact absurd h (by decide)
  · split at h
    · exact absurd h (by decide)
    · split at h
      · exact absurd h (by decide)
      · split at h
        · exact absurd h (by decide)
        · split at h
          · assumption
          · split at h
            · exact absurd h (by decide)
            · split at h
              · exact absurd h (by decide)
              · split at h
                · exact absurd h (by decide)
                · split at h
                  · exact absurd h (by decide)
                  · exact absurd h (by decide)

theorem sum_intent_cond {q : String}
    (h : parse_intent q = .canned "SELECT SUM(age) FROM people_info;" "sum of ages") :
    (["sum of age", "sum of ages", "total age", "total of ages", "sum ages"].any
      (fun k => containsSub (pyLower q) k)) = true := by
  simp only [parse_intent] at h
  split at h
  · exact absurd h (by decide)
  · split at h
    · exact absurd h (by decide)
    · split at h
      · exact absurd h (by decide)
      · split at h
        · exact absurd h (by decide)
        · split at h
          · exact absurd h (by decide)
          · split at h
            · assumption
            · split at h
              · exact absurd h (by decide)
              · split at h
                · exact absurd h (by decide)
                · split at h
                  · exact absurd h (by decide)
                  · exact absurd h (by decide)

theorem avg_intent_cond {q : String}
    (h : parse_intent q = .canned "SELECT AVG(age) FROM people_info;" "average age") :
    (["average age", "avg age", "average of ages", "mean age"].any
      (fun k => containsSub (pyLower q) k)) = true := by
  simp only [parse_intent] at h
  split at h
  · exact absurd h (by decide)
  · split at h
    · exact absurd h (by decide)
    · split at h
      · exact absurd h (by decide)
      · split at h
        · exact absurd h (by decide)
        · split at h
          · exact absurd h (by decide)
          · split at h
            · exact absurd h (by decide)
            · split at h
              · assumption
              · split at h
                · exact absurd h (by decide)
                · split at h
                  · exact absurd h (by decide)
                  · exact absurd h (by decide)

theorem name_sub_of_noIntent {q : String} (h : parse_intent q = .noIntent) :
    containsSub (pyLower q) "name" = false := by
  cases hc : containsSub (pyLower q) "name" with
  | false => rfl
  | true =>
    have hcond : (["name", "names", "list names", "just tell me the names",
        "tell me the names", "all the people"].any
          (fun k => containsSub (pyLower q) k)) = true :=
      List.any_eq_true.mpr ⟨"name", by decide, hc⟩
    simp only [parse_intent, hcond, if_pos] at h
    exact absurd h (by decide)

/-! ## Claim C3 -/

/-- Claim C3 (counterexample): the query `"oldest"` is classified
`retrieval` by the Intent Classifier, yet `parse_intent` resolves it to
the canned MAX-age aggregate template — so the aggregate branches of the
Intent Resolver are not all unreachable under `retrieval` classification,
refuting the claim as stated. -/
theorem c3_counterexample :
    detect_query_type "oldest" = "retrieval" ∧
    parse_intent "oldest" =
      .canned "SELECT MAX(age) FROM people_info;" "maximum age" := by
  constructor
  · decide
  · decide

/-- Claim C3 (amended): whenever the Intent Classifier classifies a query
as `retrieval`, `parse_intent` never returns the COUNT, SUM-of-age or
AVG-age canned templates (their triggers all force `analytical`
classification); the MAX-age and MIN-age templates remain reachable via
the triggers `oldest` and `youngest`, which contain no analytical
keyword. -/
theorem c3_no_count_sum_avg_under_retrieval (q : String)
    (h : detect_query_type q = "retrieval") :
    parse_intent q ≠ .canned "SELECT COUNT(*) FROM people_info;" "count" ∧
    parse_intent q ≠ .canned "SELECT SUM(age) FROM people_info;" "sum of ages" ∧
    parse_intent q ≠ .canned "SELECT AVG(age) FROM people_info;" "average age" := by
  have hage : containsSub (pyLower q) "age" = false :=
    no_kw_of_retrieval h "age" (by decide)
  have hcount : containsSub (pyLower q) "count" = false :=
    no_kw_of_retrieval h "count" (by decide)
  have hhm : containsSub (pyLower q) "how many" = false :=
    no_kw_of_retrieval h "how many" (by decide)
  have htn : containsSub (pyLower q) "total number" = false :=
    no_kw_of_retrieval h "total number" (by decide)
  have hno : containsSub (pyLower q) "number of" = false :=
    no_kw_of_retrieval h "number of" (by decide)
  refine ⟨?_, ?_, ?_⟩
  · intro heq
    have hc := count_intent_cond heq
    rw [hcount, hhm, htn, hno] at hc
    exact absurd hc (by decide)
  · intro heq
    obtain ⟨k, hk, hck⟩ := List.any_eq_true.mp (sum_intent_cond heq)
    fin_cases hk <;>
      exact absurd (@containsSub_trans _ _ "age" hck (by decide)) (by simp [hage])
  · intro heq
    obtain ⟨k, hk, hck⟩ := List.any_eq_true.mp (avg_intent_cond heq)
    fin_cases hk <;>
      exact absurd (@containsSub_trans _ _ "age" hck (by decide)) (by simp [hage])

/-- Claim C3 (witness): the amended theorem applied to the concrete query
`"hello"`, which is classified `retrieval`. -/
theorem c3_witness :
    parse_intent "hello" ≠ .canned "SELECT COUNT(*) FROM people_info;" "count" ∧
    parse_intent "hello" ≠ .canned "SELECT SUM(age) FROM people_info;" "sum of ages" ∧
    parse_intent "hello" ≠ .canned "SELECT AVG(age) FROM people_info;" "average age" :=
  c3_no_count_sum_avg_under_retrieval "hello" (by decide)

/-! ## Sanitizer lemmas -/

theorem dropWhile_head_false {α : Type} {p : α → Bool} :
    ∀ {l : List α} {a : α} {t : List α}, l.dropWhile p = a :: t → p a = false := by
  intro l
  induction l with
  | nil => intro a t h; simp [List.dropWhile] at h
  | cons x xs ih =>
    intro a t h
    rw [List.dropWhile_cons] at h
    split at h
    · exact ih h
    · injection h with h1 h2
      subst h1
      simpa using (by assumption : ¬ p x = true)

theorem dropWhile_idem {α : Type} (p : α → Bool) (l : List α) :
    (l.dropWhile p).dropWhile p = l.dropWhile p := by
  cases h : l.dropWhile p with
  | nil => simp
  | cons a t =>
    have ha := dropWhile_head_false h
    simp [List.dropWhile_cons, ha]

theorem trimChars_prefix_drop (l : List Char) :
    trimChars l <+: l.dropWhile Char.isWhitespace := by
  unfold trimChars
  conv_rhs => rw [← List.reverse_reverse (l.dropWhile Char.isWhitespace)]
  exact List.reverse_prefix.mpr (List.dropWhile_suffix _)

theorem trimChars_dropWhile (l : List Char) :
    (trimChars l).dropWhile Char.isWhitespace = trimChars l := by
  cases h : trimChars l with
  | nil => simp
  | cons a t =>
    have hpre := trimChars_prefix_drop l
    rw [h] at hpre
    obtain ⟨u, hu⟩ := hpre
    have ha : Char.isWhitespace a = false := by
      apply dropWhile_head_false (l := l) (t := t ++ u)
      rw [← hu]
      rfl
    simp [List.dropWhile_cons, ha]

theorem trimChars_reverse_dropWhile (l : List Char) :
    (trimChars l).reverse.dropWhile Char.isWhitespace = (trimChars l).reverse := by
  unfold trimChars
  rw [List.reverse_reverse]
  exact dropWhile_idem _ _

theorem trimChars_idem (l : List Char) :
    trimChars (trimChars l) = trimChars l := by
  conv_lhs => rw [trimChars]
  rw [trimChars_dropWhile, trimChars_reverse_dropWhile, List.reverse_reverse]

theorem mem_trimChars {c : Char} {l : List Char} (h : c ∈ trimChars l) : c ∈ l := by
  unfold trimChars at h
  rw [List.mem_reverse] at h
  have h1 := (List.dropWhile_sublist Char.isWhitespace).subset h
  rw [List.mem_reverse] at h1
  exact (List.dropWhile_sublist Char.isWhitespace).subset h1

theorem trimChars_append_semi (l : List Char) :
    trimChars (trimChars l ++ [';']) = trimChars l ++ [';'] := by
  have h1 : (trimChars l ++ [';']).dropWhile Char.isWhitespace =
      trimChars l ++ [';'] := by
    cases h : trimChars l with
    | nil =>
      rw [List.nil_append, List.dropWhile_cons_of_neg (by decide)]
    | cons a t =>
      have ha : Char.isWhitespace a = false := by
        have h2 := trimChars_dropWhile l
        rw [h] at h2
        exact dropWhile_head_false h2
      rw [List.cons_append, List.dropWhile_cons_of_neg (by simp [ha])]
  have h2 : (trimChars l ++ [';']).reverse.dropWhile Char.isWhitespace
      = (trimChars l ++ [';']).reverse := by
    rw [List.reverse_append]
    simp only [List.reverse_cons, List.reverse_nil, List.nil_append,
      List.singleton_append]
    rw [List.dropWhile_cons_of_neg (by decide)]
  conv_lhs => rw [trimChars]
  rw [h1, h2, List.reverse_reverse]

theorem takeWhile_append_semi {m : List Char} (h : ∀ c ∈ m, c ≠ ';') :
    (m ++ [';']).takeWhile (fun c => c != ';') = m := by
  induction m with
  | nil =>
    rw [List.nil_append,
        @List.takeWhile_cons_of_neg Char (fun c => c != ';') ';' [] (by decide)]
  | cons a t ih =>
    have ha : (a != ';') = true := by
      simpa using h a (by simp)
    rw [List.cons_append,
        @List.takeWhile_cons_of_pos Char (fun c => c != ';') a (t ++ [';']) ha,
        ih (fun c hc => h c (by simp [hc]))]

theorem sanitize_shape (raw : String) :
    ∃ z : List Char,
      sanitize raw =
        String.mk (trimChars (z.takeWhile (fun c => c != ';'))) ++ ";" := by
  unfold sanitize
  exact ⟨_, rfl⟩

theorem toList_sanitize (raw : String) {z : List Char}
    (h : sanitize raw =
      String.mk (trimChars (z.takeWhile (fun c => c != ';'))) ++ ";") :
    (sanitize raw).toList = trimChars (z.takeWhile (fun c => c != ';')) ++ [';'] := by
  rw [h]
  show (String.mk (trimChars (z.takeWhile (fun c => c != ';'))) ++
    (";" : String)).data = _
  rw [String.data_append]

theorem no_semi_in_trim_take (z : List Char) :
    ∀ c ∈ trimChars (z.takeWhile (fun c => c != ';')), c ≠ ';' := by
  intro c hc
  have h1 := mem_trimChars hc
  have h2 := List.mem_takeWhile_imp h1
  simpa using h2

/-! ## Claim C8 -/

/-- Claim C8: for every input string, the sanitizer's output contains
exactly one `;`, which is its last character — everything from the first
`;` of the (trimmed, fence-stripped, tag-stripped) text onward is
discarded and a single trailing `;` appended. -/
theorem c8_sanitize_single_statement (raw : String) :
    (sanitize raw).toList.count ';' = 1 ∧
    (sanitize raw).toList.getLast? = some ';' := by
  obtain ⟨z, hz⟩ := sanitize_shape raw
  rw [toList_sanitize raw hz]
  constructor
  · rw [List.count_append]
    rw [List.count_eq_zero_of_not_mem
      (fun hm => no_semi_in_trim_take z ';' hm rfl)]
    simp
  · exact List.getLast?_concat _

/-- A string fixed by `pyStrip` that starts with neither a fence nor an
`sql` tag passes through the sanitizer's final truncation step only. -/
theorem sanitize_plain (y : String)
    (hstrip : pyStrip y = y)
    (h1 : pyStartsWith y "```" = false)
    (h2 : pyStartsWith (pyLower y) "sql\n" = false) :
    sanitize y =
      pyStrip (String.mk (y.toList.takeWhile (fun c => c != ';'))) ++ ";" := by
  simp only [sanitize, hstrip, h1, h2, Bool.false_eq_true, if_false]

/-! ## Claim C4 -/

/-- Claim C4 (counterexample): the sanitizer is not idempotent.  On the
input consisting of a bare fence line, a second fence-opening line and a
body line, the first pass strips only the first fence line, leaving an
output that still starts with a fence, which a second pass strips again. -/
theorem c4_counterexample :
    sanitize (sanitize "```\n```a\nb") ≠ sanitize "```\n```a\nb" := by
  decide

/-- Claim C4 (amended): the sanitizer is idempotent on every input whose
sanitized output does not itself start with a code fence and does not
start with an `sql` language-tag line; when the output again starts with
a fence or tag (possible, since fence stripping removes only the first
and last fence lines), a second pass can strip further. -/
theorem c4_idempotent_unless_fence_or_tag (x : String)
    (h1 : pyStartsWith (sanitize x) "```" = false)
    (h2 : pyStartsWith (pyLower (sanitize x)) "sql\n" = false) :
    sanitize (sanitize x) = sanitize x := by
  obtain ⟨z, hz⟩ := sanitize_shape x
  have hlist : (sanitize x).toList =
      trimChars (z.takeWhile (fun c => c != ';')) ++ [';'] :=
    toList_sanitize x hz
  have hmkeq : String.mk (trimChars (z.takeWhile (fun c => c != ';')) ++ [';'])
      = sanitize x := by
    apply String.ext
    exact hlist.symm
  have hstrip : pyStrip (sanitize x) = sanitize x := by
    unfold pyStrip
    rw [show (sanitize x).toList =
        trimChars (z.takeWhile (fun c => c != ';')) ++ [';'] from hlist]
    rw [trimChars_append_semi]
    exact hmkeq
  rw [sanitize_plain (sanitize x) hstrip h1 h2]
  rw [hlist, takeWhile_append_semi (no_semi_in_trim_take z)]
  unfold pyStrip
  show String.mk
      (trimChars (trimChars (z.takeWhile (fun c => c != ';')))) ++ ";" =
    sanitize x
  rw [trimChars_idem]
  exact hz.symm

/-- Claim C4 (witness): the amended idempotence theorem applied to the
concrete input `"SELECT 1;"`. -/
theorem c4_witness : sanitize (sanitize "SELECT 1;") = sanitize "SELECT 1;" :=
  c4_idempotent_unless_fence_or_tag "SELECT 1;" (by decide) (by decide)

/-! ## Event-shape lemmas -/

theorem execute_sql_events (env : Env) (sql : String) :
    ∀ ev ∈ (execute_sql env sql).2, ∃ s p, ev = Event.dbExecEv s p := by
  intro ev hev
  unfold execute_sql at hev
  split at hev
  · simp at hev
  · split at hev <;> (simp at hev; exact ⟨_, _, hev⟩)

theorem tokenLoop_events (env : Env) :
    ∀ (ts : List String) (found : List ((String ⊕ Row) × Row)) (ev : Event),
      ev ∈ (tokenLoop env ts found).2 → ∃ s p, ev = Event.dbExecEv s p := by
  intro ts
  induction ts with
  | nil => intro found ev hev; simp [tokenLoop] at hev
  | cons t rest ih =>
    intro found ev hev
    simp only [tokenLoop] at hev
    split at hev
    · simp at hev; exact ⟨_, _, hev⟩
    · rcases List.mem_cons.mp hev with h | h
      · exact ⟨_, _, h⟩
      · exact ih _ ev h

theorem retrieve_events (env : Env) (q : String) :
    ∀ ev ∈ (retrieve_from_db env q).2,
      ev = Event.nameShortcutEv ∨ ∃ s p, ev = Event.dbExecEv s p := by
  intro ev hev
  unfold retrieve_from_db at hev
  split at hev
  · split at hev <;>
      (simp at hev
       rcases hev with h | h
       · exact Or.inl h
       · exact Or.inr ⟨_, _, h⟩)
  · simp only [] at hev
    split at hev
    · simp at hev; exact Or.inr ⟨_, _, hev⟩
    · split at hev
      · split at hev
        · rcases List.mem_cons.mp hev with h | h
          · exact Or.inr ⟨_, _, h⟩
          · exact Or.inr (tokenLoop_events env _ _ ev h)
        · split at hev <;>
            (rcases List.mem_cons.mp hev with h | h
             · exact Or.inr ⟨_, _, h⟩
             · exact Or.inr (tokenLoop_events env _ _ ev h))
      · simp at hev; exact Or.inr ⟨_, _, hev⟩

theorem retrieve_events_guard_false (env : Env) (q : String)
    (hg : nameShortcutGuard q = false) :
    ∀ ev ∈ (retrieve_from_db env q).2, ∃ s p, ev = Event.dbExecEv s p := by
  intro ev hev
  rcases retrieve_events env q ev hev with h | h
  · exfalso
    subst h
    unfold retrieve_from_db at hev
    rw [hg] at hev
    simp only [Bool.false_eq_true, if_false] at hev
    split at hev
    · simp at hev
    · split at hev
      · split at hev
        · rcases List.mem_cons.mp hev with h | h
          · exact absurd h (by simp)
          · obtain ⟨s, p, hsp⟩ := tokenLoop_events env _ _ _ h
            exact absurd hsp (by simp)
        · split at hev <;>
            (rcases List.mem_cons.mp hev with h | h
             · exact absurd h (by simp)
             · obtain ⟨s, p, hsp⟩ := tokenLoop_events env _ _ _ h
               exact absurd hsp (by simp))
      · simp at hev
  · exact h

theorem execute_count_cursor (env : Env) (sql : String) :
    List.count Event.cursorCloseEv (execute_sql env sql).2 = 0 :=
  List.count_eq_zero_of_not_mem (fun hm => by
    obtain ⟨s, p, h⟩ := execute_sql_events env sql _ hm
    exact absurd h (by simp))

theorem execute_count_conn (env : Env) (sql : String) :
    List.count Event.connCloseEv (execute_sql env sql).2 = 0 :=
  List.count_eq_zero_of_not_mem (fun hm => by
    obtain ⟨s, p, h⟩ := execute_sql_events env sql _ hm
    exact absurd h (by simp))

theorem retrieve_count_cursor (env : Env) (q : String) :
    List.count Event.cursorCloseEv (retrieve_from_db env q).2 = 0 :=
  List.count_eq_zero_of_not_mem (fun hm => by
    rcases retrieve_events env q _ hm with h | ⟨s, p, h⟩ <;>
      exact absurd h (by simp))

theorem retrieve_count_conn (env : Env) (q : String) :
    List.count Event.connCloseEv (retrieve_from_db env q).2 = 0 :=
  List.count_eq_zero_of_not_mem (fun hm => by
    rcases retrieve_events env q _ hm with h | ⟨s, p, h⟩ <;>
      exact absurd h (by simp))

/-! ## Case analysis of the pipeline body -/

theorem runBody_ok (env : Env) (q : String) (o : Out) (evs : List Event)
    (h : runBody env q = (.ok o, evs)) :
    o.error = none ∧ evs.count Event.cursorCloseEv = 1 ∧
      evs.count Event.connCloseEv = 1 := by
  simp only [runBody] at h
  repeat' split at h
  all_goals injection h with hres hevs
  all_goals try exact Except.noConfusion hres
  all_goals injection hres with ho
  all_goals subst ho
  all_goals subst hevs
  all_goals refine ⟨rfl, ?_, ?_⟩
  all_goals
    simp [List.count_append, List.count_cons, execute_count_cursor,
      execute_count_conn, retrieve_count_cursor, retrieve_count_conn]

theorem runBody_error (env : Env) (q : String) (o : Out) (e : String)
    (evs : List Event) (h : runBody env q = (.error (o, e), evs)) :
    o.error = none ∧ evs.count Event.cursorCloseEv = 0 ∧
      evs.count Event.connCloseEv = 0 := by
  simp only [runBody] at h
  repeat' split at h
  all_goals injection h with hres hevs
  all_goals try exact Except.noConfusion hres
  all_goals injection hres with hpair
  all_goals injection hpair with ho he
  all_goals subst ho
  all_goals subst hevs
  all_goals refine ⟨rfl, ?_, ?_⟩
  all_goals
    simp [List.count_append, List.count_cons, execute_count_cursor,
      execute_count_conn, retrieve_count_cursor, retrieve_count_conn]

/-! ## Claim C9 -/

/-- Claim C9: the Intent Classifier returns the analytical label (the
source spells it `"sql_query"`) exactly when the lower-cased query
contains some member of the fixed analytical keyword set as a substring,
returns `"retrieval"` otherwise, and returns one of these two values for
every input. -/
theorem c9_detect_query_type_spec (q : String) :
    (detect_query_type q = "sql_query" ↔
      ∃ kw ∈ analytical_keywords, containsSub (pyLower q) kw = true) ∧
    (detect_query_type q = "sql_query" ∨ detect_query_type q = "retrieval") := by
  unfold detect_query_type
  split
  next h =>
    refine ⟨⟨fun _ => ?_, fun _ => rfl⟩, Or.inl rfl⟩
    exact List.any_eq_true.mp h
  next h =>
    refine ⟨⟨fun he => absurd he (by decide), fun hex => ?_⟩, Or.inr rfl⟩
    exact absurd (List.any_eq_true.mpr hex) h

/-! ## Claim C7 -/

/-- Claim C7: the guarded executor returns the fixed advisory string and
performs no database call at all (empty execution trace, so the database
state is untouched) for any statement that does not start with `select`
case-insensitively; for a `select` statement whose execution raises, the
exception is caught and returned as a formatted error string. -/
theorem c7_execute_sql_guard (env : Env) (sql : String) :
    (pyStartsWith (pyLower sql) "select" = false →
      execute_sql env sql =
        (.inr " Only SELECT queries are allowed for safety.", [])) ∧
    (∀ e, pyStartsWith (pyLower sql) "select" = true →
      env.dbExec sql [] = .error e →
      execute_sql env sql =
        (.inr ("⚠️SQL Error: " ++ e), [Event.dbExecEv sql []])) := by
  constructor
  · intro h
    unfold execute_sql
    rw [h]
    simp
  · intro e h hdb
    unfold execute_sql
    rw [h, hdb]
    simp

/-- Claim C7 (witness): `"DROP TABLE x"` is rejected with the advisory
string and no database call; a failing `"SELECT 1"` is returned as a
formatted error string. -/
theorem c7_witness :
    execute_sql envFail "DROP TABLE x" =
      (.inr " Only SELECT queries are allowed for safety.", []) ∧
    execute_sql envFail "SELECT 1" =
      (.inr ("⚠️SQL Error: " ++ "bad table"), [Event.dbExecEv "SELECT 1" []]) :=
  ⟨(c7_execute_sql_guard envFail "DROP TABLE x").1 (by decide),
   (c7_execute_sql_guard envFail "SELECT 1").2 "bad table" (by decide) rfl⟩

/-! ## Claim C2 -/

/-- Claim C2 (counterexample): with the explainer oracle raising after the
connection was acquired, the pipeline returns an error result but the
trace holds no cursor-close and no connection-close event — the
connection acquired at entry is leaked, so the resources are not closed
exactly once on this exit path. -/
theorem c2_counterexample :
    (run_query envBoom "how many people are there").1.error = some "boom" ∧
    (run_query envBoom "how many people are there").2.count Event.connectEv = 1 ∧
    (run_query envBoom "how many people are there").2.count Event.cursorCloseEv = 0 ∧
    (run_query envBoom "how many people are there").2.count Event.connCloseEv = 0 := by
  decide

/-- Claim C2 (amended): on every exit path that is a normal completion
(success or handled error result, i.e. `error = none`) the cursor and
connection are each closed exactly once; but on every exit via an
unexpected exception (`error` populated) they are never closed — the
source's `except` block does not release them. -/
theorem c2_close_exactly_once_unless_exception (env : Env) (q : String) :
    ((run_query env q).1.error = none →
      (run_query env q).2.count Event.cursorCloseEv = 1 ∧
      (run_query env q).2.count Event.connCloseEv = 1) ∧
    ((run_query env q).1.error ≠ none →
      (run_query env q).2.count Event.cursorCloseEv = 0 ∧
      (run_query env q).2.count Event.connCloseEv = 0) := by
  rcases hr : runBody env q with ⟨res, evs⟩
  cases res with
  | ok o =>
    have hspec := runBody_ok env q o evs hr
    unfold run_query
    rw [hr]
    exact ⟨fun _ => ⟨hspec.2.1, hspec.2.2⟩, fun hne => absurd hspec.1 hne⟩
  | error oe =>
    obtain ⟨o, e⟩ := oe
    have hspec := runBody_error env q o e evs hr
    unfold run_query
    rw [hr]
    exact ⟨fun h0 => Option.noConfusion h0,
           fun _ => ⟨hspec.2.1, hspec.2.2⟩⟩

/-- Claim C2 (witness): the amended theorem at a concrete succeeding
environment and query — the run ends with `error = none` and one close
of each resource. -/
theorem c2_witness :
    (run_query envOk "hello").2.count Event.cursorCloseEv = 1 ∧
    (run_query envOk "hello").2.count Event.connCloseEv = 1 :=
  (c2_close_exactly_once_unless_exception envOk "hello").1 (by decide)

/-! ## Claim C1 -/

/-- Claim C1 (counterexample): with the explainer oracle raising, the
returned record populates `error` together with the partial results
(`generated_sql`, `sql_result`) computed before the exception — they are
not discarded, so `error` is not mutually exclusive with the other
fields. -/
theorem c1_counterexample :
    (run_query envBoom "how many people are there").1.error = some "boom" ∧
    (run_query envBoom "how many people are there").1.generated_sql ≠ none ∧
    (run_query envBoom "how many people are there").1.sql_result ≠ none := by
  decide

/-- Claim C1 (amended): `error` is populated exactly on the exception
paths, but partial results written into the record before the exception
are retained alongside `error`, not discarded: on the analytical path,
when the explainer raises after SQL generation and execution succeeded,
the returned record carries `generated_sql`, `sql_result` and the
`error` message together. -/
theorem c1_error_retains_partials (env : Env) (q s : String)
    (rows : List Row) (e : String)
    (h1 : detect_query_type q = "sql_query")
    (h2 : env.get_connection = .ok ())
    (h3 : env.open_cursor = .ok ())
    (h4 : env.llmSqlText q = .ok s)
    (h5 : pyStartsWith (pyLower (sanitize s)) "select" = true)
    (h6 : env.dbExec (sanitize s) [] = .ok rows)
    (h7 : env.explain_sql_result rows q = .error e) :
    (run_query env q).1 =
      { generated_sql := some (sanitize s), sql_result := some (.inl rows),
        retrieved_context := none, model_answer := none, error := some e } := by
  simp only [run_query, runBody, generate_sql, execute_sql,
    h1, h2, h3, h4, h5, h6]
  simp [h7, out0]

/-- Claim C1 (witness): the amended theorem at the concrete environment
`envBoom` and an analytical query. -/
theorem c1_witness :
    (run_query envBoom "how many people are there").1 =
      { generated_sql := some (sanitize "SELECT COUNT(*) FROM people_info;"),
        sql_result := some (.inl [["3"]]),
        retrieved_context := none, model_answer := none,
        error := some "boom" } :=
  c1_error_retains_partials envBoom "how many people are there"
    "SELECT COUNT(*) FROM people_info;" [["3"]] "boom"
    (by decide) rfl rfl rfl (by decide) rfl rfl

/-! ## Claim C5 and C10 helpers -/

theorem canned_not_in_execute (env : Env) (sql s t : String) :
    (Event.cannedIntentEv s t ∈ (execute_sql env sql).2) = False := by
  simp only [eq_iff_iff, iff_false]
  intro hm
  obtain ⟨s', p', h⟩ := execute_sql_events env sql _ hm
  exact absurd h (by simp)

theorem canned_not_in_retrieve (env : Env) (q s t : String) :
    (Event.cannedIntentEv s t ∈ (retrieve_from_db env q).2) = False := by
  simp only [eq_iff_iff, iff_false]
  intro hm
  rcases retrieve_events env q _ hm with h | ⟨s', p', h⟩ <;>
    exact absurd h (by simp)

theorem shortcut_not_in_execute (env : Env) (sql : String) :
    (Event.nameShortcutEv ∈ (execute_sql env sql).2) = False := by
  simp only [eq_iff_iff, iff_false]
  intro hm
  obtain ⟨s', p', h⟩ := execute_sql_events env sql _ hm
  exact absurd h (by simp)

theorem guard_false_of_noIntent {q : String}
    (h : parse_intent q = Intent.noIntent) : nameShortcutGuard q = false := by
  have hname := name_sub_of_noIntent h
  have hnames : containsSub (pyLower q) "names" = false := by
    cases hc : containsSub (pyLower q) "names" with
    | false => rfl
    | true =>
      exact absurd (@containsSub_trans _ _ "name" hc (by decide))
        (by simp [hname])
  unfold nameShortcutGuard
  simp only []
  rw [hname, hnames]
  simp

theorem shortcut_not_in_retrieve_of_noIntent (env : Env) (q : String)
    (h : parse_intent q = Intent.noIntent) :
    (Event.nameShortcutEv ∈ (retrieve_from_db env q).2) = False := by
  simp only [eq_iff_iff, iff_false]
  intro hm
  obtain ⟨s', p', hsp⟩ :=
    retrieve_events_guard_false env q (guard_false_of_noIntent h) _ hm
  exact absurd hsp (by simp)

theorem no_canned_ev_of_sql (env : Env) (q : String)
    (hq : detect_query_type q = "sql_query") (s t : String) :
    Event.cannedIntentEv s t ∉ (run_query env q).2 := by
  intro hmem
  unfold run_query at hmem
  rcases hr : runBody env q with ⟨res, evs⟩
  rw [hr] at hmem
  have hevs : Event.cannedIntentEv s t ∈ evs := by
    cases res with
    | ok o => simpa using hmem
    | error oe => obtain ⟨o, e⟩ := oe; simpa using hmem
  clear hmem
  simp only [runBody] at hr
  repeat' split at hr
  all_goals injection hr with hres hevs2
  all_goals subst hevs2
  all_goals simp_all [canned_not_in_execute]

theorem no_shortcut_ev (env : Env) (q : String) :
    Event.nameShortcutEv ∉ (run_query env q).2 := by
  intro hmem
  unfold run_query at hmem
  rcases hr : runBody env q with ⟨res, evs⟩
  rw [hr] at hmem
  have hevs : Event.nameShortcutEv ∈ evs := by
    cases res with
    | ok o => simpa using hmem
    | error oe => obtain ⟨o, e⟩ := oe; simpa using hmem
  clear hmem
  simp only [runBody] at hr
  repeat' split at hr
  all_goals injection hr with hres hevs2
  all_goals subst hevs2
  all_goals
    simp_all [shortcut_not_in_execute, shortcut_not_in_retrieve_of_noIntent]

/-! ## Claim C5 -/

/-- Claim C5: any query whose lower-cased form contains `"age"` is
classified analytical (source label `"sql_query"`), and the pipeline
never enters the canned-intent branch with the retrieval-list-ages
template on such a query — no canned-intent event for
`SELECT id, name, age FROM people_info;` ever appears in its trace. -/
theorem c5_age_never_canned (env : Env) (q : String)
    (h : containsSub (pyLower q) "age" = true) :
    detect_query_type q = "sql_query" ∧
    Event.cannedIntentEv "SELECT id, name, age FROM people_info;"
      "names and ages" ∉ (run_query env q).2 := by
  have hdet := detect_eq_sql_query_of_kw "age" (by decide) h
  exact ⟨hdet, no_canned_ev_of_sql env q hdet _ _⟩

/-- Claim C5 (witness): the theorem at a concrete query containing
`"age"` and a concrete environment. -/
theorem c5_witness :
    detect_query_type "what age is John" = "sql_query" ∧
    Event.cannedIntentEv "SELECT id, name, age FROM people_info;"
      "names and ages" ∉ (run_query envOk "what age is John").2 :=
  c5_age_never_canned envOk "what age is John" (by decide)

/-! ## Claim C10 -/

/-- Claim C10: the name-listing shortcut inside `retrieve_from_db` is
dead code under the pipeline: `retrieve_from_db` is reached only when
`parse_intent` returned no action, but any query containing `"name"`
already triggers `parse_intent`'s first branch, so the shortcut's guard
can never hold — no run of `run_query`, for any environment and query,
ever produces a name-shortcut event. -/
theorem c10_shortcut_unreachable (env : Env) (q : String) :
    Event.nameShortcutEv ∉ (run_query env q).2 :=
  no_shortcut_ev env q

/-! ## Claim C6: dedup lemmas -/

theorem mem_keys_dictInsert {d : List ((String ⊕ Row) × Row)}
    {a k : String ⊕ Row} {v : Row}
    (h : a ∈ (dictInsert d k v).map Prod.fst) :
    a = k ∨ a ∈ d.map Prod.fst := by
  induction d with
  | nil => simp [dictInsert] at h; exact Or.inl h
  | cons p rest ih =>
    obtain ⟨k', v'⟩ := p
    simp only [dictInsert] at h
    split at h
    · simp only [List.map_cons, List.mem_cons] at h
      rcases h with h | h
      · exact Or.inl h
      · exact Or.inr (by simp [h])
    · simp only [List.map_cons, List.mem_cons] at h
      rcases h with h | h
      · exact Or.inr (by simp [h])
      · rcases ih h with h1 | h1
        · exact Or.inl h1
        · exact Or.inr (by simp [h1])

theorem dictInsert_keyinv {d : List ((String ⊕ Row) × Row)} {v : Row}
    (hd : KeyInv d) : KeyInv (dictInsert d (rowKey v) v) := by
  induction d with
  | nil =>
    refine ⟨by simp [dictInsert], ?_⟩
    intro p hp
    simp [dictInsert] at hp
    simp [hp]
  | cons p rest ih =>
    obtain ⟨k', v'⟩ := p
    obtain ⟨hnd, hkv⟩ := hd
    simp only [List.map_cons, List.nodup_cons] at hnd
    have hrest : KeyInv rest :=
      ⟨hnd.2, fun p hp => hkv p (by simp [hp])⟩
    simp only [dictInsert]
    split
    next heq =>
      refine ⟨?_, ?_⟩
      · simp only [List.map_cons, List.nodup_cons]
        exact ⟨by rw [← heq]; exact hnd.1, hnd.2⟩
      · intro p hp
        rcases List.mem_cons.mp hp with h | h
        · simp [h]
        · exact hkv p (by simp [h])
    next hne =>
      obtain ⟨ih1, ih2⟩ := ih hrest
      refine ⟨?_, ?_⟩
      · simp only [List.map_cons, List.nodup_cons]
        refine ⟨?_, ih1⟩
        intro hmem
        rcases mem_keys_dictInsert hmem with h | h
        · exact hne h
        · exact hnd.1 h
      · intro p hp
        rcases List.mem_cons.mp hp with h | h
        · exact hkv p (by simp [h])
        · exact ih2 p h

theorem foldl_dictInsert_keyinv (rows : List Row) :
    ∀ d, KeyInv d →
      KeyInv (rows.foldl (fun d' r => dictInsert d' (rowKey r) r) d) := by
  induction rows with
  | nil => intro d hd; exact hd
  | cons r rest ih =>
    intro d hd
    exact ih _ (dictInsert_keyinv hd)

theorem values_countP_le_one {d : List ((String ⊕ Row) × Row)}
    (hd : KeyInv d) (v : String) :
    (d.map Prod.snd).countP (fun r => decide (rowKey r = Sum.inl v)) ≤ 1 := by
  induction d with
  | nil => simp
  | cons p rest ih =>
    obtain ⟨k₀, r₀⟩ := p
    obtain ⟨hnd, hkv⟩ := hd
    simp only [List.map_cons, List.nodup_cons] at hnd
    have hrest : KeyInv rest :=
      ⟨hnd.2, fun p hp => hkv p (by simp [hp])⟩
    have hk₀ : k₀ = rowKey r₀ := hkv ⟨k₀, r₀⟩ (by simp)
    simp only [List.map_cons, List.countP_cons]
    by_cases hp : rowKey r₀ = Sum.inl v
    · have hzero :
          (rest.map Prod.snd).countP
            (fun r => decide (rowKey r = Sum.inl v)) = 0 := by
        rw [List.countP_eq_zero]
        intro r hr
        simp only [decide_eq_true_eq]
        intro hrk
        obtain ⟨pr, hpr, hpr2⟩ := List.mem_map.mp hr
        have : pr.1 = Sum.inl v := by
          rw [hrest.2 pr hpr, hpr2, hrk]
        apply hnd.1
        rw [hk₀, hp, ← this]
        exact List.mem_map.mpr ⟨pr, hpr, rfl⟩
      rw [hzero]
      simp [hp]
    · have := ih hrest
      simp only [decide_eq_true_eq]
      rw [if_neg hp]
      simpa using this

theorem tokenLoop_pure (env : Env) (f : String → List String → List Row)
    (hdb : ∀ s p, env.dbExec s p = Except.ok (f s p)) :
    ∀ (ts : List String) (found : List ((String ⊕ Row) × Row)),
      tokenLoop env ts found =
        (.ok (ts.foldl (fun d t =>
            (f fuzzySql ["%" ++ t ++ "%", "%" ++ t ++ "%", "%" ++ t ++ "%",
              "%" ++ t ++ "%"]).foldl
              (fun d' r => dictInsert d' (rowKey r) r) d) found),
         ts.map (fun t => Event.dbExecEv fuzzySql
           ["%" ++ t ++ "%", "%" ++ t ++ "%", "%" ++ t ++ "%",
            "%" ++ t ++ "%"])) := by
  intro ts
  induction ts with
  | nil => intro found; simp [tokenLoop]
  | cons t rest ih =>
    intro found
    simp only [tokenLoop, hdb]
    rw [ih]
    simp

theorem tokens_fold_keyinv (g : String → List Row) (ts : List String) :
    ∀ d, KeyInv d →
      KeyInv (ts.foldl (fun d t =>
        (g t).foldl (fun d' r => dictInsert d' (rowKey r) r) d) d) := by
  induction ts with
  | nil => intro d hd; exact hd
  | cons t rest ih =>
    intro d hd
    exact ih _ (foldl_dictInsert_keyinv (g t) d hd)

/-- Claim C6: when the full-query wildcard search returns zero rows (and
the name shortcut does not fire), the fallback searches exactly the
word-character tokens of the query that are not stopwords and are longer
than 2 characters — one database call per such token, in order, after the
full-query call — and the returned result set contains at most one row
per first-column (id) value. -/
theorem c6_token_fallback (env : Env) (q : String)
    (f : String → List String → List Row)
    (hdb : ∀ s p, env.dbExec s p = Except.ok (f s p))
    (hguard : nameShortcutGuard q = false)
    (hempty : f fuzzySql ["%" ++ q ++ "%", "%" ++ q ++ "%", "%" ++ q ++ "%",
      "%" ++ q ++ "%"] = []) :
    (∀ t : String, t ∈ fallbackTokens q ↔
      (t ∈ wordTokens q ∧ _STOPWORDS.contains (pyLower t) = false ∧
        2 < t.length)) ∧
    (retrieve_from_db env q).2 =
      Event.dbExecEv fuzzySql ["%" ++ q ++ "%", "%" ++ q ++ "%",
        "%" ++ q ++ "%", "%" ++ q ++ "%"] ::
      (fallbackTokens q).map (fun t =>
        Event.dbExecEv fuzzySql ["%" ++ t ++ "%", "%" ++ t ++ "%",
          "%" ++ t ++ "%", "%" ++ t ++ "%"]) ∧
    ∃ res, (retrieve_from_db env q).1 = .ok res ∧
      ∀ v : String, res.countP (fun r => decide (rowKey r = Sum.inl v)) ≤ 1 := by
  have htl := tokenLoop_pure env f hdb (fallbackTokens q) []
  have hinv : KeyInv ((fallbackTokens q).foldl (fun d t =>
      (f fuzzySql ["%" ++ t ++ "%", "%" ++ t ++ "%", "%" ++ t ++ "%",
        "%" ++ t ++ "%"]).foldl
        (fun d' r => dictInsert d' (rowKey r) r) d) []) :=
    tokens_fold_keyinv _ (fallbackTokens q) [] ⟨by simp, by simp⟩
  refine ⟨?_, ?_, ?_⟩
  · intro t
    simp [fallbackTokens, List.mem_filter]
  · unfold retrieve_from_db
    rw [hguard]
    simp only [Bool.false_eq_true, if_false]
    simp only [hdb, hempty, List.isEmpty_nil, if_pos, htl]
    split <;> rfl
  · unfold retrieve_from_db
    rw [hguard]
    simp only [Bool.false_eq_true, if_false]
    simp only [hdb, hempty, List.isEmpty_nil, if_pos, htl]
    split
    next hfe =>
      exact ⟨[], rfl, by simp⟩
    next hfe =>
      refine ⟨_, rfl, ?_⟩
      intro v
      exact values_countP_le_one hinv v

/-- Claim C6 (witness): the theorem at the concrete query
`"who is Asmi"` against the one-row table — the stopwords `who` and `is`
are dropped, the single token `Asmi` is searched, and the row appears
once. -/
theorem c6_witness :
    (∀ t : String, t ∈ fallbackTokens "who is Asmi" ↔
      (t ∈ wordTokens "who is Asmi" ∧
        _STOPWORDS.contains (pyLower t) = false ∧ 2 < t.length)) ∧
    (retrieve_from_db envT "who is Asmi").2 =
      Event.dbExecEv fuzzySql ["%" ++ "who is Asmi" ++ "%",
        "%" ++ "who is Asmi" ++ "%", "%" ++ "who is Asmi" ++ "%",
        "%" ++ "who is Asmi" ++ "%"] ::
      (fallbackTokens "who is Asmi").map (fun t =>
        Event.dbExecEv fuzzySql ["%" ++ t ++ "%", "%" ++ t ++ "%",
          "%" ++ t ++ "%", "%" ++ t ++ "%"]) ∧
    ∃ res, (retrieve_from_db envT "who is Asmi").1 = .ok res ∧
      ∀ v : String, res.countP (fun r => decide (rowKey r = Sum.inl v)) ≤ 1 :=
  c6_token_fallback envT "who is Asmi" fTable (fun _ _ => rfl)
    (by decide) (by decide)

end RagSql
